import Mathlib

/-!
Verification of the weblite HTTP/WebSocket protocol engine.

This file gives a shallow embedding of the library's pure protocol logic:
byte buffers are `List Nat` (each element one byte), machine integers are
`Nat` with explicit `% 2 ^ 32` / `% 2 ^ 64` where Rust wrapping matters,
fallible operations return `Option`/`Except`, and the blocking stream of a
connection is a `List Nat` of pending bytes consumed by explicit reads.
Loops without a structurally decreasing argument take an explicit fuel
argument; every call site supplies fuel that provably exceeds the source
loop's iteration count, so the embedding agrees with the source.
-/

/-- Bytes of an ASCII string literal (each char's code point). -/
def bs (s : String) : List Nat := s.toList.map Char.toNat

/-! ## ascii.rs -/

/-- Loop body of `atoi` (src/ascii.rs): iterates over the digits with the
running index `i`, the total input length `len`, and the wrapping `u32`
accumulator `val`.  `10_u32.pow` and the `u32` add/mul wrap, hence the
explicit `% 2 ^ 32`. -/
def atoiLoop (len : Nat) : Nat → Nat → List Nat → Option Nat
  | _, val, [] => some val
  | i, val, digit :: rest =>
    if digit < 48 ∨ 57 < digit then none
    else
      let possition := i + 1
      let exp := len - possition
      let digitVal := digit - 48
      let pow := 10 ^ exp % 2 ^ 32
      let prod := digitVal * pow % 2 ^ 32
      atoiLoop len (i + 1) ((val + prod) % 2 ^ 32) rest

/-- `atoi` (src/ascii.rs): parses an unsigned ASCII-decimal number.  The
initial `data.len().try_into::<u32>()` fails only when the length does not
fit in a `u32`. -/
def atoi (data : List Nat) : Option Nat :=
  if 2 ^ 32 ≤ data.length then none
  else atoiLoop data.length 0 0 data

/-- Loop of `AsciiInt::from` (src/ascii.rs): repeatedly divides by ten and
writes the remainder digit at index `19 - round` of the 20-byte array.  The
source loop runs once per decimal digit; 20 units of fuel therefore suffice
for every value below `10 ^ 20` (in particular for every `u64`). -/
def asciiFromLoop : Nat → Nat → Nat → List Nat → List Nat
  | 0, _, _, arr => arr
  | fuel + 1, int, round, arr =>
    let int' := int / 10
    let rem := int % 10
    let arr' := arr.set (19 - round) (rem + 48)
    if int' = 0 then arr' else asciiFromLoop fuel int' (round + 1) arr'

/-- `AsciiInt::from` (src/ascii.rs): a 20-byte right-justified decimal
rendering, space-padded on the left. -/
def AsciiInt.from (value : Nat) : List Nat :=
  asciiFromLoop 20 value 0 (List.replicate 20 32)

/-- ASCII white-space bytes, the ASCII fragment of Rust's
`char::is_whitespace` used by `str::trim` (all inputs reaching `trim` in
this development are ASCII). -/
def wsb (b : Nat) : Bool := b = 32 ∨ b = 9 ∨ b = 10 ∨ b = 11 ∨ b = 12 ∨ b = 13

/-- `str::trim` on a byte string: drop white space from both ends. -/
def trimBytes (l : List Nat) : List Nat :=
  ((l.dropWhile wsb).reverse.dropWhile wsb).reverse

/-- `AsciiInt::as_str` (src/ascii.rs): the array viewed as text, trimmed. -/
def AsciiInt.asStr (arr : List Nat) : List Nat := trimBytes arr

/-- Specification-side decimal rendering (most significant digit first),
with fuel; `decRep` supplies fuel that always suffices. -/
def decRepF : Nat → Nat → List Nat
  | 0, _ => []
  | fuel + 1, n => if n < 10 then [n + 48] else decRepF fuel (n / 10) ++ [n % 10 + 48]

/-- The usual decimal digit string of `n`. -/
def decRep (n : Nat) : List Nat := decRepF (n + 1) n


/-! ## header.rs -/

/-- One byte of Rust's `eq_ignore_ascii_case` folding. -/
def toLowerByte (b : Nat) : Nat := if 65 ≤ b ∧ b ≤ 90 then b + 32 else b

/-- `str::eq_ignore_ascii_case` on byte strings. -/
def eqIgnoreCase (a b : List Nat) : Bool := a.map toLowerByte = b.map toLowerByte

/-- `RequestHeader` (src/header.rs). -/
inductive RequestHeader where
  | host (s : List Nat)
  | userAgent (s : List Nat)
  | upgrade (s : List Nat)
  | secWebSocketKey (s : List Nat)
  | accept (s : List Nat)
  | acceptLanguage (s : List Nat)
  | acceptEncoding (s : List Nat)
  | referer (s : List Nat)
  | connection (s : List Nat)
  | upgradeInsecureRequests (s : List Nat)
  | ifModifiedSince (s : List Nat)
  | ifNoneMatch (s : List Nat)
  | cacheControl (s : List Nat)
  | contentLength (n : Nat)
  | contentRange (s : List Nat)
  | contentType (s : List Nat)
  | contentEncoding (s : List Nat)
  | contentLocation (s : List Nat)
  | contentLanguage (s : List Nat)
  | etag (s : List Nat)
  | other (k v : List Nat)
deriving DecidableEq

/-- `TryFrom<(&str, &str)> for RequestHeader` (src/header.rs): the ordered
case-insensitive comparisons of the source `match`; only the
Content-Length arm can fail, with `Err(Some(_))`.  The `as usize` cast of
the parsed `u32` is lossless. -/
def RequestHeader.tryFrom (name value : List Nat) : Except (Option String) RequestHeader :=
  if eqIgnoreCase name (bs "Host") then .ok (.host value)
  else if eqIgnoreCase name (bs "User-Agent") then .ok (.userAgent value)
  else if eqIgnoreCase name (bs "Upgrade") then .ok (.upgrade value)
  else if eqIgnoreCase name (bs "Sec-WebSocket-Key") then .ok (.secWebSocketKey value)
  else if eqIgnoreCase name (bs "Accept") then .ok (.accept value)
  else if eqIgnoreCase name (bs "Accept-Language") then .ok (.acceptLanguage value)
  else if eqIgnoreCase name (bs "Accept-Encoding") then .ok (.acceptEncoding value)
  else if eqIgnoreCase name (bs "Referer") then .ok (.referer value)
  else if eqIgnoreCase name (bs "Connection") then .ok (.connection value)
  else if eqIgnoreCase name (bs "Upgrade-Insecure-Requests") then
    .ok (.upgradeInsecureRequests value)
  else if eqIgnoreCase name (bs "If-Modified-Since") then .ok (.ifModifiedSince value)
  else if eqIgnoreCase name (bs "If-None-Match") then .ok (.ifNoneMatch value)
  else if eqIgnoreCase name (bs "Cache-Control") then .ok (.cacheControl value)
  else if eqIgnoreCase name (bs "Content-Range") then .ok (.contentRange value)
  else if eqIgnoreCase name (bs "Content-Type") then .ok (.contentType value)
  else if eqIgnoreCase name (bs "Content-Encoding") then .ok (.contentEncoding value)
  else if eqIgnoreCase name (bs "Content-Location") then .ok (.contentLocation value)
  else if eqIgnoreCase name (bs "Content-Language") then .ok (.contentLanguage value)
  else if eqIgnoreCase name (bs "ETag") then .ok (.etag value)
  else if eqIgnoreCase name (bs "Content-Length") then
    match atoi value with
    | some n => .ok (.contentLength n)
    | none => .error (some "invalid content-length")
  else .ok (.other name value)

/-- `ResponseHeader` (src/header.rs). -/
inductive ResponseHeader where
  | accessControlAllowOrigin (s : List Nat)
  | connection (s : List Nat)
  | date (s : List Nat)
  | keepAlive (s : List Nat)
  | lastModified (s : List Nat)
  | server (s : List Nat)
  | setCookie (s : List Nat)
  | transferEncoding (s : List Nat)
  | vary (s : List Nat)
  | contentLength (n : Nat)
  | contentRange (s : List Nat)
  | contentType (s : List Nat)
  | contentEncoding (s : List Nat)
  | contentLocation (s : List Nat)
  | contentLanguage (s : List Nat)
  | etag (s : List Nat)
  | secWebSocketAccept (s : List Nat)
  | other (k v : List Nat)
deriving DecidableEq

/-- The common final writes of `ResponseHeader::write`: a colon-space, the
value text, then CR LF. -/
def headerTail (val : List Nat) : List Nat := bs ": " ++ val ++ [13, 10]

/-- `impl HttpWrite for ResponseHeader` (src/header.rs), as the byte trace
written to the stream.  A `ContentLength` of zero returns before writing
anything. -/
def ResponseHeader.write : ResponseHeader → List Nat
  | .accessControlAllowOrigin s => bs "Access-Control-Allow-Origin" ++ headerTail s
  | .connection s => bs "Connection" ++ headerTail s
  | .date s => bs "Date" ++ headerTail s
  | .keepAlive s => bs "Keep-Alive" ++ headerTail s
  | .lastModified s => bs "Last-Modified" ++ headerTail s
  | .server s => bs "Server" ++ headerTail s
  | .setCookie s => bs "Set-Cookie" ++ headerTail s
  | .transferEncoding s => bs "Transfer-Encoding" ++ headerTail s
  | .vary s => bs "Vary" ++ headerTail s
  | .contentLength n =>
    if n = 0 then []
    else bs "Content-Length" ++ headerTail (AsciiInt.asStr (AsciiInt.from n))
  | .contentRange s => bs "Content-Range" ++ headerTail s
  | .contentType s => bs "Content-Type" ++ headerTail s
  | .contentEncoding s => bs "Content-Encoding" ++ headerTail s
  | .contentLocation s => bs "Content-Location" ++ headerTail s
  | .contentLanguage s => bs "Content-Language" ++ headerTail s
  | .etag s => bs "ETag" ++ headerTail s
  | .secWebSocketAccept s => bs "Sec-WebSocket-Accept" ++ headerTail s
  | .other k v => k ++ headerTail v

/-! ## request.rs -/

/-- `Method` (src/request.rs). -/
inductive Method where
  | GET | POST | PUT | PATCH | DELETE | OPTIONS | HEAD
deriving DecidableEq

/-- `TryFrom<&[u8]> for Method` (src/request.rs). -/
def Method.tryFrom (w : List Nat) : Except String Method :=
  if w = bs "GET" then .ok .GET
  else if w = bs "POST" then .ok .POST
  else if w = bs "PUT" then .ok .PUT
  else if w = bs "PATCH" then .ok .PATCH
  else if w = bs "DELETE" then .ok .DELETE
  else if w = bs "OPTIONS" then .ok .OPTIONS
  else if w = bs "HEAD" then .ok .HEAD
  else .error "unknown http method"

/-- `RequestError` (src/request.rs). -/
inductive RequestError where
  | incomplete (hint : Option Nat)
  | protocolError (reason : String)
deriving DecidableEq

/-- `Request` (src/request.rs); the borrowed `&str`/`&[u8]` views are byte
lists. -/
structure Request where
  method : Method
  path : List Nat
  host : List Nat
  content_type : Option (List Nat)
  user_agent : Option (List Nat)
  content_length : Nat
  body : Option (List Nat)
  header_slice : Option (List Nat)
deriving DecidableEq

/-- Validity of a byte sequence as UTF-8 (`str::from_utf8(data).is_ok()`),
per RFC 3629's well-formed byte ranges. -/
def utf8Valid : List Nat → Bool
  | [] => true
  | b :: rest =>
    if b < 128 then utf8Valid rest
    else if 194 ≤ b ∧ b ≤ 223 then
      match rest with
      | c1 :: rest1 => if 128 ≤ c1 ∧ c1 ≤ 191 then utf8Valid rest1 else false
      | [] => false
    else if b = 224 then
      match rest with
      | c1 :: c2 :: rest2 =>
        if (160 ≤ c1 ∧ c1 ≤ 191) ∧ (128 ≤ c2 ∧ c2 ≤ 191) then utf8Valid rest2 else false
      | _ => false
    else if (225 ≤ b ∧ b ≤ 236) ∨ b = 238 ∨ b = 239 then
      match rest with
      | c1 :: c2 :: rest2 =>
        if (128 ≤ c1 ∧ c1 ≤ 191) ∧ (128 ≤ c2 ∧ c2 ≤ 191) then utf8Valid rest2 else false
      | _ => false
    else if b = 237 then
      match rest with
      | c1 :: c2 :: rest2 =>
        if (128 ≤ c1 ∧ c1 ≤ 159) ∧ (128 ≤ c2 ∧ c2 ≤ 191) then utf8Valid rest2 else false
      | _ => false
    else if b = 240 then
      match rest with
      | c1 :: c2 :: c3 :: rest3 =>
        if (144 ≤ c1 ∧ c1 ≤ 191) ∧ (128 ≤ c2 ∧ c2 ≤ 191) ∧ (128 ≤ c3 ∧ c3 ≤ 191) then
          utf8Valid rest3
        else false
      | _ => false
    else if 241 ≤ b ∧ b ≤ 243 then
      match rest with
      | c1 :: c2 :: c3 :: rest3 =>
        if (128 ≤ c1 ∧ c1 ≤ 191) ∧ (128 ≤ c2 ∧ c2 ≤ 191) ∧ (128 ≤ c3 ∧ c3 ≤ 191) then
          utf8Valid rest3
        else false
      | _ => false
    else if b = 244 then
      match rest with
      | c1 :: c2 :: c3 :: rest3 =>
        if (128 ≤ c1 ∧ c1 ≤ 143) ∧ (128 ≤ c2 ∧ c2 ≤ 191) ∧ (128 ≤ c3 ∧ c3 ≤ 191) then
          utf8Valid rest3
        else false
      | _ => false
    else false

/-- First occurrence of a separator byte: the bytes before it and after
it. -/
def splitFirst (sep : Nat) : List Nat → Option (List Nat × List Nat)
  | [] => none
  | b :: rest =>
    if b = sep then some ([], rest)
    else
      match splitFirst sep rest with
      | none => none
      | some (pre, post) => some (b :: pre, post)

/-- `slice::splitn(n, |b| *b == sep)`: at most `n` chunks, the last one
holding the unsplit remainder. -/
def splitn : Nat → Nat → List Nat → List (List Nat)
  | 0, _, _ => []
  | 1, _, l => [l]
  | n + 2, sep, l =>
    match splitFirst sep l with
    | none => [l]
    | some (pre, post) => pre :: splitn (n + 1) sep post

/-- `Request::parse_request_line` (src/request.rs): word 0 is the method
(possibly failing), word 1 the path, word 2 is parsed but ignored; a
fourth word cannot occur with `splitn(3, _)` but the source keeps an error
arm for it. -/
def Request.parseRequestLine (req : Request) (data : List Nat) : Except RequestError Request :=
  match splitn 3 32 data with
  | [] => .ok req
  | [w0] =>
    match Method.tryFrom w0 with
    | .ok m => .ok { req with method := m }
    | .error _ => .error (.protocolError "unknown http method")
  | [w0, w1] =>
    match Method.tryFrom w0 with
    | .ok m => .ok { req with method := m, path := w1 }
    | .error _ => .error (.protocolError "unknown http method")
  | [w0, w1, _] =>
    match Method.tryFrom w0 with
    | .ok m => .ok { req with method := m, path := w1 }
    | .error _ => .error (.protocolError "unknown http method")
  | _ => .error (.protocolError "malformed http request")

/-- `Request::parse_header_line` (src/request.rs): split at the first
colon, trim both sides, resolve through `RequestHeader::tryFrom` and cache
the four eagerly-stored headers onto the request. -/
def Request.parseHeaderLine (req : Request) (data : List Nat) : Except RequestError Request :=
  let parts := splitn 2 58 data
  let header : Option (List Nat) :=
    match parts with
    | w0 :: _ => some (trimBytes w0)
    | [] => none
  let value : Option (List Nat) :=
    match parts with
    | _ :: w1 :: _ => some (trimBytes w1)
    | _ => none
  match header, value with
  | some h, some v =>
    match RequestHeader.tryFrom h v with
    | .ok (.contentLength l) => .ok { req with content_length := l }
    | .ok (.host s) => .ok { req with host := s }
    | .ok (.contentType s) => .ok { req with content_type := some s }
    | .ok (.userAgent s) => .ok { req with user_agent := some s }
    | .ok _ => .ok req
    | .error none => .ok req
    | .error (some e) => .error (.protocolError e)
  | _, _ => .ok req

/-- The mutable locals of the `Request::parse` scan loop. -/
structure ParseState where
  req : Request
  request_line_done : Bool
  header_start_offset : Nat
  header_end_offset : Nat
  line_start : Nat
deriving DecidableEq

/-- `data[a..b]` for `a ≤ b ≤ data.len()` (every use in the source is in
bounds). -/
def listSlice (data : List Nat) (a b : Nat) : List Nat := (data.drop a).take (b - a)

/-- `data.get(a..b)`: `none` when the range is invalid or past the end. -/
def listGetRange (data : List Nat) (a b : Nat) : Option (List Nat) :=
  if a ≤ b ∧ b ≤ data.length then some (listSlice data a b) else none

/-- How the `for i in 0..=data.len()` scan of `Request::parse` stops:
breaking at an empty CR LF line, running past the end, or an early error
return from a line parser. -/
inductive LoopOutcome where
  | blankAt (i : Nat) (st : ParseState)
  | ended (st : ParseState)
  | failed (e : RequestError)
deriving DecidableEq

/-- The scan loop of `Request::parse` (src/request.rs).  `i` travels from 0
to `data.length` inclusive; fuel `data.length + 1` makes the recursion
structural and is exact. -/
def parseLoop (data : List Nat) : Nat → Nat → ParseState → LoopOutcome
  | 0, _, st => .ended st
  | fuel + 1, i, st =>
    if data.length < i then .ended st
    else
      let sl := listSlice data st.line_start i
      if sl = [13, 10] then .blankAt i st
      else if 2 ≤ sl.length ∧ sl.drop (sl.length - 2) = [13, 10] then
        let line := sl.take (sl.length - 2)
        if st.request_line_done then
          match st.req.parseHeaderLine line with
          | .error e => .failed e
          | .ok req' =>
            parseLoop data fuel (i + 1)
              { st with
                req := req',
                header_start_offset :=
                  if st.header_start_offset = 0 then st.line_start else st.header_start_offset,
                header_end_offset := i,
                line_start := i }
        else
          match st.req.parseRequestLine line with
          | .error e => .failed e
          | .ok req' =>
            parseLoop data fuel (i + 1)
              { st with req := req', request_line_done := true, line_start := i }
      else parseLoop data fuel (i + 1) st

/-- The zero value `Request::parse` starts from. -/
def Request.initial : Request :=
  { method := .GET, path := [], host := [], content_type := none, user_agent := none,
    content_length := 0, body := none, header_slice := none }

/-- Initial loop state of `Request::parse`. -/
def ParseState.initial : ParseState :=
  { req := Request.initial, request_line_done := false, header_start_offset := 0,
    header_end_offset := 0, line_start := 0 }

/-- Code of `Request::parse` after the blank line was found: attach the
body (the source does this just before `break`, which is equivalent),
record the header slice, and check the path. -/
def Request.finish (data : List Nat) (st : ParseState) (body : Option (List Nat)) :
    Except RequestError Request :=
  let req1 :=
    match body with
    | some b => { st.req with body := some b }
    | none => st.req
  let req2 :=
    if st.header_start_offset ≠ 0 ∧ st.header_end_offset ≠ 0 then
      { req1 with
        header_slice := some (listSlice data st.header_start_offset st.header_end_offset) }
    else req1
  if req2.path = [] then .error (.protocolError "malformed HTTP request") else .ok req2

/-- `Request::parse` (src/request.rs). -/
def Request.parse (data : List Nat) : Except RequestError Request :=
  if ¬ utf8Valid data then .error (.protocolError "http request is not valid utf8")
  else
    match parseLoop data (data.length + 1) 0 ParseState.initial with
    | .failed e => .error e
    | .ended _ => .error (.incomplete none)
    | .blankAt i st =>
      if 0 < st.req.content_length then
        match listGetRange data i (i + st.req.content_length) with
        | none => .error (.incomplete (some st.req.content_length))
        | some b => Request.finish data st (some b)
      else Request.finish data st none

/-- Observable outcome of the scan loop used to state claims about inputs
whose header section is complete: the blank-line position and the parsed
content length. -/
def parseBlankInfo (data : List Nat) : Option (Nat × Nat) :=
  match parseLoop data (data.length + 1) 0 ParseState.initial with
  | .blankAt i st => some (i, st.req.content_length)
  | _ => none


/-! ## response.rs -/

/-- `StatusCode` (src/response.rs). -/
inductive StatusCode where
  | switchingProtocols
  | ok
  | badRequest
  | notFound
  | internalServerError
  | other (n : Nat)
deriving DecidableEq

/-- `impl HttpWrite for StatusCode` (src/response.rs): the byte trace of
the status line. -/
def StatusCode.write (c : StatusCode) : List Nat :=
  let data :=
    match c with
    | .switchingProtocols => bs "101 Switching Protocols"
    | .ok => bs "200 OK"
    | .badRequest => bs "400 Bad Request"
    | .notFound => bs "404 Not Found"
    | .internalServerError => bs "500 Internal Server Error"
    | .other n => AsciiInt.asStr (AsciiInt.from n)
  bs "HTTP/1.1" ++ [32] ++ data ++ [13, 10]

/-- `ResponderInner` (src/response.rs) without the stream handle; write
operations below return the byte traces they produce. -/
structure ResponderInner where
  status : StatusCode
  server : ResponseHeader
deriving DecidableEq

/-- `ResponderInner::with_status` (src/response.rs): the status line, then
the bound Server header unless it equals `Server("")`. -/
def ResponderInner.withStatus (r : ResponderInner) (status : StatusCode) : List Nat :=
  status.write ++ (if ResponseHeader.server [] ≠ r.server then r.server.write else [])

/-- `ResponderInner::no_body` (src/response.rs): the terminating blank
line. -/
def ResponderInner.noBody : List Nat := [13, 10]

/-- `ResponderInner::with_body` (src/response.rs): a Content-Length header
computed from the body length, the blank line, then the body bytes. -/
def ResponderInner.withBody (body : List Nat) : List Nat :=
  (ResponseHeader.contentLength body.length).write ++ [13, 10] ++ body

/-- `Responder::new` (src/response.rs): status OK and the Server header
bound to the request's Host value. -/
def Responder.new (request : Request) : ResponderInner :=
  { status := .ok, server := ResponseHeader.server request.host }

/-! ## websocket.rs -/

/-- `WebsocketError` (src/websocket.rs). -/
inductive WebsocketError where
  | insufficientData (n : Nat)
  | unsupported (reason : String)
  | networkError
deriving DecidableEq

/-- `WebsocketFrame` (src/websocket.rs). -/
structure WebsocketFrame where
  opcode : Nat
  len : Nat
  fin : Bool
  masked : Bool
  mask : Option (List Nat)
deriving DecidableEq

/-- `WebsocketFrame::decode` (src/websocket.rs).  `value[1] << 1 >> 1` on a
`u8` is `((v1 <<< 1) % 256) >>> 1`; the two extended-length `if`s are
consecutive, exactly as in the source (a decoded 16-bit length of 127
therefore also enters the 64-bit branch).  On a 64-bit platform the final
`usize::try_from` of a `u64` never fails. -/
def WebsocketFrame.decode (value : List Nat) : Except WebsocketError WebsocketFrame :=
  if value.length < 2 then .error (.insufficientData (2 - value.length))
  else
    let v0 := value.getD 0 0
    let v1 := value.getD 1 0
    let opcode := v0 &&& 15
    if ¬ (v0 &&& 128 = 128) ∨ opcode = 0 then
      .error (.unsupported "payload fragmentation not supported")
    else
      let masked : Bool := v1 &&& 128 = 128
      let len0 := ((v1 <<< 1) % 256) >>> 1
      let afterExt : Except WebsocketError (Nat × Nat × Nat) :=
        if len0 = 126 then
          if value.length < 4 then .error (.insufficientData (4 - value.length))
          else .ok ((value.getD 2 0) <<< 8 ||| value.getD 3 0, 4, 4)
        else .ok (len0, 2, 2)
      match afterExt with
      | .error e => .error e
      | .ok (len1, maskOff1, req1) =>
        let after64 : Except WebsocketError (Nat × Nat × Nat) :=
          if len1 = 127 then
            if value.length < req1 + 8 then .error (.insufficientData (req1 + 8 - value.length))
            else
              .ok ((value.getD 2 0) <<< 56 ||| (value.getD 3 0) <<< 48 |||
                (value.getD 4 0) <<< 40 ||| (value.getD 5 0) <<< 32 |||
                (value.getD 6 0) <<< 24 ||| (value.getD 7 0) <<< 16 |||
                (value.getD 8 0) <<< 8 ||| value.getD 9 0, 10, req1 + 8)
          else .ok (len1, maskOff1, req1)
        match after64 with
        | .error e => .error e
        | .ok (len2, maskOff, req2) =>
          if masked then
            if value.length < req2 + 4 then .error (.insufficientData (req2 + 4 - value.length))
            else
              .ok { fin := true, opcode := opcode, masked := masked, len := len2,
                    mask := some ((value.drop maskOff).take 4) }
          else .ok { fin := true, opcode := opcode, masked := masked, len := len2, mask := none }

/-- The loop of `WebsocketFrame::apply_mask` (src/websocket.rs), walking
the buffer with its index: positions below `lenn` are XORed with
`mask[i % 4]`. -/
def applyMaskBytes (mask : List Nat) (lenn : Nat) : Nat → List Nat → List Nat
  | _, [] => []
  | i, b :: rest =>
    (if i < lenn then b ^^^ mask.getD (i % 4) 0 else b) :: applyMaskBytes mask lenn (i + 1) rest

/-- `WebsocketFrame::apply_mask` (src/websocket.rs): a no-op when no mask
is present. -/
def WebsocketFrame.applyMask (f : WebsocketFrame) (data : List Nat) : List Nat :=
  match f.mask with
  | some mask => applyMaskBytes mask f.len 0 data
  | none => data

/-- `Read::read_exact` over the modelled connection stream: take exactly
`n` pending bytes or fail. -/
def readExact (s : List Nat) (n : Nat) : Option (List Nat × List Nat) :=
  if n ≤ s.length then some (s.take n, s.drop n) else none

/-- The retry loop of `Websocket::receive` (src/websocket.rs): decode the
accumulated header bytes, and on `InsufficientData(n)` read `n` more.  The
source accumulates into a 14-byte array and `required_bytes` never exceeds
14, so 14 units of fuel are more than the loop can consume. -/
def decodeLoopWS : Nat → List Nat → List Nat → Except WebsocketError (WebsocketFrame × List Nat)
  | 0, _, _ => .error .networkError
  | fuel + 1, acc, s =>
    match WebsocketFrame.decode acc with
    | .ok h => .ok (h, s)
    | .error (.insufficientData n) =>
      match readExact s n with
      | none => .error .networkError
      | some (chunk, s') => decodeLoopWS fuel (acc ++ chunk) s'
    | .error e => .error e

/-- `Websocket::receive` (src/websocket.rs): read six header bytes
up front, run the decode retry loop, then read the payload into the
caller's buffer (capacity `bufCap`) and unmask in place when the mask bit
was set.  Returns the frame, the buffer contents `buf[..len]`, and the
rest of the connection stream. -/
def Websocket.receive (s : List Nat) (bufCap : Nat) :
    Except WebsocketError (WebsocketFrame × List Nat × List Nat) :=
  match readExact s 6 with
  | none => .error .networkError
  | some (hdr6, s1) =>
    match decodeLoopWS 14 hdr6 s1 with
    | .error e => .error e
    | .ok (header, s2) =>
      if bufCap < header.len then .error (.unsupported "payload length exceeds buffer size")
      else
        match readExact s2 header.len with
        | none => .error .networkError
        | some (payload, s3) =>
          let out := if header.masked then header.applyMask payload else payload
          .ok (header, out, s3)

/-- Left rotation of a 32-bit word. -/
def rotl32 (n x : Nat) : Nat := ((x <<< n) ||| (x >>> (32 - n))) % 2 ^ 32

/-- Big-endian bytes of a 32-bit word. -/
def be32 (x : Nat) : List Nat :=
  [x >>> 24 % 256, x >>> 16 % 256, x >>> 8 % 256, x % 256]

/-- Big-endian bytes of a 64-bit word. -/
def be64 (x : Nat) : List Nat :=
  [x >>> 56 % 256, x >>> 48 % 256, x >>> 40 % 256, x >>> 32 % 256,
   x >>> 24 % 256, x >>> 16 % 256, x >>> 8 % 256, x % 256]

/-- Modelled from the spec: the `Sha1` hasher used by
`sec_websocket_accept_val` comes from the external `sha1` crate, which is
not part of this repository; this is the SHA-1 message schedule of
RFC 3174: the 16 block words extended to 80 by rotated XORs. -/
def sha1Schedule (block : List Nat) : List Nat :=
  let word := fun (j : Nat) =>
    (block.getD (4 * j) 0) <<< 24 ||| (block.getD (4 * j + 1) 0) <<< 16 |||
    (block.getD (4 * j + 2) 0) <<< 8 ||| block.getD (4 * j + 3) 0
  let w0 := (List.range 16).map word
  (List.range 64).foldl
    (fun w i =>
      w ++ [rotl32 1 ((w.getD (i + 13) 0) ^^^ (w.getD (i + 8) 0) ^^^
        (w.getD (i + 2) 0) ^^^ (w.getD i 0))])
    w0

/-- Modelled from the spec: the 80 SHA-1 rounds of RFC 3174 over one
block's schedule. -/
def sha1Rounds (w : List Nat) (init : Nat × Nat × Nat × Nat × Nat) :
    Nat × Nat × Nat × Nat × Nat :=
  (List.range 80).foldl
    (fun st i =>
      let (a, b, c, d, e) := st
      let notb := b ^^^ (2 ^ 32 - 1)
      let f :=
        if i < 20 then (b &&& c) ||| (notb &&& d)
        else if i < 40 then b ^^^ c ^^^ d
        else if i < 60 then (b &&& c) ||| (b &&& d) ||| (c &&& d)
        else b ^^^ c ^^^ d
      let k :=
        if i < 20 then 0x5A827999
        else if i < 40 then 0x6ED9EBA1
        else if i < 60 then 0x8F1BBCDC
        else 0xCA62C1D6
      let temp := (rotl32 5 a + f + e + k + w.getD i 0) % 2 ^ 32
      (temp, a, rotl32 30 b, c, d))
    init

/-- Modelled from the spec: one SHA-1 block step (RFC 3174). -/
def sha1Block (st : Nat × Nat × Nat × Nat × Nat) (block : List Nat) :
    Nat × Nat × Nat × Nat × Nat :=
  let (h0, h1, h2, h3, h4) := st
  let (a, b, c, d, e) := sha1Rounds (sha1Schedule block) st
  ((h0 + a) % 2 ^ 32, (h1 + b) % 2 ^ 32, (h2 + c) % 2 ^ 32,
   (h3 + d) % 2 ^ 32, (h4 + e) % 2 ^ 32)

/-- The five SHA-1 state words rendered big-endian, the 20-byte digest. -/
def sha1Digest (st : Nat × Nat × Nat × Nat × Nat) : List Nat :=
  be32 st.1 ++ be32 st.2.1 ++ be32 st.2.2.1 ++ be32 st.2.2.2.1 ++ be32 st.2.2.2.2

/-- Modelled from the spec: the SHA-1 digest (RFC 3174) of a byte message,
standing in for the external `sha1` crate used by the source. -/
def sha1 (msg : List Nat) : List Nat :=
  let ml := msg.length * 8
  let z := (64 + 56 - (msg.length + 1) % 64) % 64
  let padded := msg ++ [128] ++ List.replicate z 0 ++ be64 ml
  let nb := padded.length / 64
  sha1Digest
    ((List.range nb).foldl
      (fun st i => sha1Block st ((padded.drop (64 * i)).take 64))
      (0x67452301, 0xEFCDAB89, 0x98BADCFE, 0x10325476, 0xC3D2E1F0))

/-- The base64 standard alphabet (RFC 4648). -/
def b64Alphabet : List Nat :=
  bs "ABCDEFGHIJKLMNOPQRSTUVWXYZabcdefghijklmnopqrstuvwxyz0123456789+/"

/-- One base64 alphabet character. -/
def b64Char (i : Nat) : Nat := b64Alphabet.getD i 65

/-- Modelled from the spec: padded standard base64 (RFC 4648), standing in
for the external `base64ct` crate used by the source. -/
def b64encode : List Nat → List Nat
  | a :: b :: c :: rest =>
    b64Char (a >>> 2) :: b64Char ((a &&& 3) <<< 4 ||| b >>> 4) ::
    b64Char ((b &&& 15) <<< 2 ||| c >>> 6) :: b64Char (c &&& 63) :: b64encode rest
  | [a, b] =>
    [b64Char (a >>> 2), b64Char ((a &&& 3) <<< 4 ||| b >>> 4), b64Char ((b &&& 15) <<< 2), 61]
  | [a] => [b64Char (a >>> 2), b64Char ((a &&& 3) <<< 4), 61, 61]
  | [] => []

/-- `sec_websocket_accept_val` (src/websocket.rs): SHA-1 over the client
key followed by the RFC 6455 magic string, base64-encoded into a 28-byte
buffer; `Base64::encode` fails exactly when the encoding does not fit the
buffer. -/
def sec_websocket_accept_val (key : List Nat) : Except String (List Nat) :=
  let keyHash := sha1 (key ++ bs "258EAFA5-E914-47DA-95CA-C5AB0DC85B11")
  let enc := b64encode keyHash
  if 28 < enc.length then .error "error enoding key hash due to invalid length"
  else .ok enc

/-! ## server.rs -/

/-- `ResponderError` (src/response.rs). -/
inductive ResponderError where
  | networkError
  | protocolError (reason : String)
deriving DecidableEq

/-- `HandlerError` (src/server.rs). -/
inductive HandlerError where
  | responderError (e : ResponderError)
  | websocketError (e : WebsocketError)
  | customError (s : String)
deriving DecidableEq

/-- `ServerError` (src/server.rs). -/
inductive ServerError where
  | protocolError (reason : String)
  | bufferExceeded (size : Nat)
  | handlerError (e : HandlerError)
deriving DecidableEq

deriving instance DecidableEq for Except

/-- Outcome of one handler invocation in `Server::serve`: `Ok(None)`,
`Ok(Some(ws))` followed by the websocket handler's result, or an error
from `handle_request`. -/
inductive HandlerStep where
  | okNone
  | okWs (wsResult : Except HandlerError Unit)
  | err (e : HandlerError)
deriving DecidableEq

/-- Copying `n` read bytes into `http_buff[offset..offset + n]`. -/
def writeAt (buf : List Nat) (offset : Nat) (bytes : List Nat) : List Nat :=
  buf.take offset ++ bytes ++ buf.drop (offset + bytes.length)

/-- The error dispatch at the end of the `Ok(n)` arm of `Server::serve`
(src/server.rs lines 199-209): only a responder `NetworkError` terminates
quietly. -/
def Server.dispatchErr (e : HandlerError) : Except ServerError Unit :=
  match e with
  | .responderError .networkError => .ok ()
  | .responderError (.protocolError s) => .error (.protocolError s)
  | _ => .error (.handlerError e)

/-- `Server::serve` (src/server.rs) driven by a list of read results: each
element is one `client.read` outcome delivering the bytes written into
`http_buff[offset..]` (an exhausted list behaves like a peer that keeps
returning `Ok(0)`).  Note the source parses `&http_buff[..]`, the whole
buffer, not `&http_buff[..offset]`.  `Ok(None)` from the handler breaks to
the outer loop, which resets the offset and reads again; a completed
websocket session and an `Incomplete` parse continue the inner loop with
the offset kept. -/
def Server.serve (handler : Request → HandlerStep) :
    List (Except Unit (List Nat)) → List Nat → Nat → Except ServerError Unit
  | [], _, offset => if 0 < offset then .error (.bufferExceeded 0) else .ok ()
  | ev :: rest, buf, offset =>
    match ev with
    | .error _ => .ok ()
    | .ok bytes =>
      if bytes.length = 0 then
        if 0 < offset then .error (.bufferExceeded 0) else .ok ()
      else
        let buf' := writeAt buf offset bytes
        let offset' := offset + bytes.length
        match Request.parse buf' with
        | .ok request =>
          match handler request with
          | .okNone => Server.serve handler rest buf' 0
          | .okWs (.ok _) => Server.serve handler rest buf' offset'
          | .okWs (.error e) => Server.dispatchErr e
          | .err e => Server.dispatchErr e
        | .error (.protocolError e) => .error (.protocolError e)
        | .error (.incomplete _) => Server.serve handler rest buf' offset'

/-- The request produced by parsing the library's own test input
`"GET /index.html HTTP/1.1\r\nContent-Length: 3\r\n\r\nabc"`. -/
def c4Sample : Request :=
  { method := .GET, path := bs "/index.html", host := [], content_type := none,
    user_agent := none, content_length := 3, body := some (bs "abc"),
    header_slice := some (bs "Content-Length: 3\r\n") }

/-- A concrete request whose Host header value is `RustServer`. -/
def c7Sample : Request :=
  { method := .GET, path := bs "/", host := bs "RustServer", content_type := none,
    user_agent := none, content_length := 0, body := none, header_slice := none }

/-- The wire header of a well-formed final masked frame per the RFC 6455
layout the claim describes: fin and mask bits set, opcode in the low
nibble, and the three-tier length encoding, followed by the 4-byte
mask. -/
def maskedWire (op lenn : Nat) (mask : List Nat) : List Nat :=
  if lenn ≤ 125 then [128 + op, 128 + lenn] ++ mask
  else if lenn < 65536 then [128 + op, 254, lenn >>> 8, lenn % 256] ++ mask
  else [128 + op, 255] ++ be64 lenn ++ mask


/-! ## Theorems -/

theorem atoiLoop_none_of_bad {b : Nat} (hb : b < 48 ∨ 57 < b) :
    ∀ (l : List Nat) (len i val : Nat), b ∈ l → atoiLoop len i val l = none := by
  intro l
  induction l with
  | nil => intro len i val h; cases h
  | cons d rest ih =>
    intro len i val h
    rw [atoiLoop]
    split
    · rfl
    · rcases List.mem_cons.mp h with rfl | hmem
      · rename_i hcond; exact absurd hb hcond
      · exact ih len (i + 1) _ hmem

/-- C5, amended part: any non-digit byte anywhere makes `atoi` return
`none`. -/
theorem atoi_none_of_nondigit (data : List Nat) (b : Nat)
    (hmem : b ∈ data) (hb : b < 48 ∨ 57 < b) : atoi data = none := by
  unfold atoi
  split
  · rfl
  · exact atoiLoop_none_of_bad hb data data.length 0 0 hmem

/-- C5 witness: `atoi` rejects `"0a"`. -/
theorem atoi_none_of_nondigit_witness : atoi [48, 97] = none :=
  atoi_none_of_nondigit [48, 97] 97 (by decide) (by decide)

/-- C5 counterexample: on the empty input `atoi` returns `some 0`, not
`none` as the claim states (the digit loop never runs and the accumulator
is returned as is). -/
theorem atoi_nil_eq_some_zero : atoi [] = some 0 := by decide

/-! ### Correctness of the decimal rendering -/

theorem decRepF_congr : ∀ n f g : Nat, n + 1 ≤ f → n + 1 ≤ g → decRepF f n = decRepF g n := by
  intro n
  induction n using Nat.strong_induction_on with
  | _ n ih =>
    intro f g hf hg
    match f, g with
    | f' + 1, g' + 1 =>
      rw [decRepF, decRepF]
      split
      · rfl
      · rename_i hn
        have h10 : 10 ≤ n := by omega
        have hlt : n / 10 < n := by omega
        have hd : n / 10 + 1 ≤ n := by omega
        rw [ih (n / 10) hlt f' g' (by omega) (by omega)]

theorem decRep_lt_ten {n : Nat} (h : n < 10) : decRep n = [n + 48] := by
  rw [decRep, decRepF, if_pos h]

theorem decRep_step {n : Nat} (h : 10 ≤ n) :
    decRep n = decRep (n / 10) ++ [n % 10 + 48] := by
  have hlt : n / 10 < n := by omega
  rw [decRep, decRepF, if_neg (by omega)]
  rw [decRepF_congr (n / 10) n (n / 10 + 1) (by omega) (by omega)]
  rfl

theorem decRep_ne_nil (n : Nat) : decRep n ≠ [] := by
  by_cases h : n < 10
  · rw [decRep_lt_ten h]; simp
  · rw [decRep_step (by omega)]; simp

theorem decRep_length_pos (n : Nat) : 0 < (decRep n).length :=
  List.length_pos.mpr (decRep_ne_nil n)

theorem decRep_digits (n : Nat) : ∀ b ∈ decRep n, 48 ≤ b ∧ b ≤ 57 := by
  induction n using Nat.strong_induction_on with
  | _ n ih =>
    by_cases h : n < 10
    · rw [decRep_lt_ten h]
      intro b hb
      simp only [List.mem_singleton] at hb
      omega
    · rw [decRep_step (by omega)]
      intro b hb
      rcases List.mem_append.mp hb with hb | hb
      · exact ih (n / 10) (by omega) b hb
      · simp only [List.mem_singleton] at hb
        have := Nat.mod_lt n (show 0 < 10 by omega)
        omega

theorem decRep_length_le : ∀ k n : Nat, n < 10 ^ (k + 1) → (decRep n).length ≤ k + 1 := by
  intro k
  induction k with
  | zero =>
    intro n hn
    rw [decRep_lt_ten (by simpa using hn)]
    simp
  | succ k ih =>
    intro n hn
    by_cases h : n < 10
    · rw [decRep_lt_ten h]; simp
    · rw [decRep_step (by omega)]
      have : n / 10 < 10 ^ (k + 1) := by
        rw [Nat.div_lt_iff_lt_mul (by omega)]
        calc n < 10 ^ (k + 2) := hn
        _ = 10 ^ (k + 1) * 10 := by ring
      simpa using ih (n / 10) this

theorem asciiFromLoop_eq : ∀ (int fuel round : Nat) (arr : List Nat),
    arr.length = 20 → (decRep int).length ≤ fuel → round + (decRep int).length ≤ 20 →
    asciiFromLoop fuel int round arr
      = arr.take (20 - round - (decRep int).length) ++ decRep int ++ arr.drop (20 - round) := by
  intro int
  induction int using Nat.strong_induction_on with
  | _ int ih =>
    intro fuel round arr hlen hfuel hround
    have hpos := decRep_length_pos int
    obtain ⟨f, rfl⟩ : ∃ f, fuel = f + 1 := ⟨fuel - 1, by omega⟩
    rw [asciiFromLoop]
    by_cases hsmall : int < 10
    case pos =>
      have hdl : decRep int = [int + 48] := decRep_lt_ten hsmall
      have hdc : (decRep int).length = 1 := by rw [hdl]; rfl
      have hdiv : int / 10 = 0 := by omega
      have hmod : int % 10 = int := by omega
      rw [if_pos hdiv, hmod, hdc, hdl]
      have hidx : 19 - round < arr.length := by omega
      rw [List.set_eq_take_cons_drop _ hidx]
      have h1 : 20 - round - 1 = 19 - round := by omega
      have h2 : 19 - round + 1 = 20 - round := by omega
      rw [h1, h2]
      simp
    case neg =>
      have hstep := decRep_step (show 10 ≤ int by omega)
      have hdiv : ¬ int / 10 = 0 := by omega
      rw [if_neg hdiv]
      have hlt : int / 10 < int := by omega
      have hpos' := decRep_length_pos (int / 10)
      have hlen' : (decRep (int / 10)).length = (decRep int).length - 1 := by
        rw [hstep]; simp
      have hset_len : (arr.set (19 - round) (int % 10 + 48)).length = 20 := by
        simp [hlen]
      have hdc1 : 1 ≤ (decRep int).length := hpos
      rw [ih (int / 10) hlt f (round + 1) _ hset_len (by omega) (by omega)]
      have e1 : 20 - (round + 1) - (decRep (int / 10)).length
          = 20 - round - (decRep int).length := by omega
      rw [e1]
      have htk : ((arr.set (19 - round) (int % 10 + 48)).take (20 - round - (decRep int).length))
          = arr.take (20 - round - (decRep int).length) := by
        rw [List.set_take, List.set_eq_of_length_le]
        rw [List.length_take]
        omega
      have hdr : ((arr.set (19 - round) (int % 10 + 48)).drop (20 - (round + 1)))
          = (int % 10 + 48) :: arr.drop (20 - round) := by
        have h19 : 20 - (round + 1) = 19 - round := by omega
        rw [h19, List.drop_set, if_neg (by omega)]
        have h0 : 19 - round - (19 - round) = 0 := by omega
        rw [h0]
        have hidx : 19 - round < arr.length := by omega
        have hdrop : arr.drop (19 - round) = arr[19 - round] :: arr.drop (19 - round + 1) := by
          rw [List.drop_eq_getElem_cons hidx]
        rw [hdrop]
        simp only [List.set_cons_zero]
        have h2 : 19 - round + 1 = 20 - round := by omega
        rw [h2]
      rw [htk, hdr, hstep]
      simp

theorem replicate_take {α : Type} (a : α) : ∀ n m : Nat, n ≤ m →
    (List.replicate m a).take n = List.replicate n a := by
  intro n
  induction n with
  | zero => intro m _; simp
  | succ n ih =>
    intro m hm
    match m with
    | m + 1 =>
      rw [List.replicate_succ, List.replicate_succ, List.take_succ_cons, ih m (by omega)]

theorem asciiFrom_eq (n : Nat) (h : n < 10 ^ 20) :
    AsciiInt.from n = List.replicate (20 - (decRep n).length) 32 ++ decRep n := by
  have hlen : (decRep n).length ≤ 20 := decRep_length_le 19 n h
  rw [AsciiInt.from, asciiFromLoop_eq n 20 0 _ (by simp) hlen (by omega)]
  rw [show (20 : Nat) - 0 - (decRep n).length = 20 - (decRep n).length by omega,
    show (20 : Nat) - 0 = 20 by omega]
  rw [replicate_take (32 : Nat) (20 - (decRep n).length) 20 (by omega)]
  rw [List.drop_eq_nil_of_le (by simp)]
  simp

theorem dropWhile_all_false {p : Nat → Bool} : ∀ l : List Nat, (∀ b ∈ l, ¬ p b) →
    l.dropWhile p = l := by
  intro l h
  match l with
  | [] => rfl
  | a :: rest => rw [List.dropWhile_cons_of_neg (h a (by simp))]

theorem trim_spaces_digits (k : Nat) (d : List Nat) (hd : ∀ b ∈ d, 48 ≤ b ∧ b ≤ 57) :
    trimBytes (List.replicate k 32 ++ d) = d := by
  have hnotws : ∀ b ∈ d, ¬ wsb b := by
    intro b hb
    have := hd b hb
    simp only [wsb, decide_eq_true_eq]
    omega
  rw [trimBytes, List.dropWhile_append_of_pos (by intro a ha; simp at ha; simp [ha, wsb]),
    dropWhile_all_false d hnotws, dropWhile_all_false]
  · simp
  · intro b hb
    exact hnotws b (List.mem_reverse.mp hb)

/-- `AsciiInt::as_str ∘ AsciiInt::from` renders exactly the decimal digit
string, for every value a `u64` can hold. -/
theorem asciiInt_asStr_from (n : Nat) (h : n < 10 ^ 20) :
    AsciiInt.asStr (AsciiInt.from n) = decRep n := by
  rw [AsciiInt.asStr, asciiFrom_eq n h, trim_spaces_digits _ _ (decRep_digits n)]

/-! ### Request.parse invariants (C4, C9) -/

theorem listGetRange_some_length {data : List Nat} {a b : Nat} {l : List Nat}
    (h : listGetRange data a b = some l) : l.length = b - a := by
  unfold listGetRange at h
  split at h
  · rename_i hcond
    injection h with h
    subst h
    simp [listSlice]
    omega
  · cases h

theorem finish_ok_fields {data : List Nat} {st : ParseState} {body : Option (List Nat)}
    {r : Request} (h : Request.finish data st body = .ok r) :
    r.path ≠ [] ∧ r.content_length = st.req.content_length ∧
      r.body = (match body with | some x => some x | none => st.req.body) := by
  unfold Request.finish at h
  match body with
  | some x =>
    simp only at h
    split at h
    · split at h
      · cases h
      · rename_i hiff hpath
        injection h with h
        subst h
        simp_all
    · split at h
      · cases h
      · rename_i hiff hpath
        injection h with h
        subst h
        simp_all
  | none =>
    simp only at h
    split at h
    · split at h
      · cases h
      · rename_i hiff hpath
        injection h with h
        subst h
        simp_all
    · split at h
      · cases h
      · rename_i hiff hpath
        injection h with h
        subst h
        simp_all

/-- C4: on every successful parse the path is non-empty, and a positive
content length comes with a body slice of exactly that length. -/
theorem parse_ok_invariants (data : List Nat) (r : Request)
    (h : Request.parse data = .ok r) :
    r.path ≠ [] ∧ (0 < r.content_length →
      ∃ b, r.body = some b ∧ b.length = r.content_length) := by
  unfold Request.parse at h
  split at h
  · cases h
  · split at h
    · cases h
    · cases h
    · rename_i i st heq
      split at h
      · rename_i hcl
        split at h
        · cases h
        · rename_i b hrange
          obtain ⟨hpath, hcl_eq, hbody⟩ := finish_ok_fields h
          refine ⟨hpath, fun _ => ⟨b, ?_, ?_⟩⟩
          · simpa using hbody
          · have := listGetRange_some_length hrange
            omega
      · rename_i hcl
        obtain ⟨hpath, hcl_eq, _⟩ := finish_ok_fields h
        exact ⟨hpath, fun hpos => absurd hpos (by omega)⟩

/-- C4 witness: the library's own test request, parsed concretely. -/
theorem parse_ok_invariants_witness :
    c4Sample.path ≠ [] ∧ (0 < c4Sample.content_length →
      ∃ b, c4Sample.body = some b ∧ b.length = c4Sample.content_length) :=
  parse_ok_invariants (bs "GET /index.html HTTP/1.1\r\nContent-Length: 3\r\n\r\nabc")
    c4Sample (by decide)

/-- C9, amended: when the scan finds the blank line at `i` with parsed
content length `c > 0` but the buffer holds fewer than `c` body bytes,
`parse` returns `Incomplete(Some c)` carrying the full declared content
length, not the missing remainder. -/
theorem parse_incomplete_carries_full_length (data : List Nat) (i c : Nat)
    (hinfo : parseBlankInfo data = some (i, c)) (hc : 0 < c)
    (hshort : data.length < i + c) (hutf : utf8Valid data = true) :
    Request.parse data = .error (.incomplete (some c)) := by
  unfold parseBlankInfo at hinfo
  unfold Request.parse
  rw [if_neg (by simp [hutf])]
  split at hinfo
  case _ i' st heq =>
    injection hinfo with hinfo
    obtain ⟨hi, hcl⟩ : i' = i ∧ st.req.content_length = c :=
      ⟨congrArg Prod.fst hinfo, congrArg Prod.snd hinfo⟩
    rw [heq]
    simp only
    rw [if_pos (by omega)]
    have hnone : listGetRange data i' (i' + st.req.content_length) = none := by
      unfold listGetRange
      rw [if_neg (by omega)]
    rw [hnone, hcl]
  case _ hne => cases hinfo

/-- C9 witness: `"GET / HTTP/1.1\r\nContent-Length: 5\r\n\r\nab"` is two
bytes short and yields `Incomplete(Some 5)`. -/
theorem parse_incomplete_carries_full_length_witness :
    Request.parse (bs "GET / HTTP/1.1\r\nContent-Length: 5\r\n\r\nab")
      = .error (.incomplete (some 5)) :=
  parse_incomplete_carries_full_length _ 37 5 (by decide) (by decide) (by decide) (by decide)

/-- C9 counterexample: with content length 3 and one body byte present the
claim demands `Incomplete(Some 2)`, but the code returns
`Incomplete(Some 3)`. -/
theorem parse_incomplete_not_remainder :
    Request.parse (bs "GET / HTTP/1.1\r\nContent-Length: 3\r\n\r\na")
      = .error (.incomplete (some 3)) ∧ some 3 ≠ some (3 - 1) :=
  ⟨by decide, by decide⟩

/-! ### WebsocketFrame.decode on the 16-bit length tier (C1) -/

/-- C1: the two extended-length `if`s in `decode` are not chained, so a
7-bit field of 126 whose 16-bit big-endian extension equals 127 falls into
the 64-bit branch: with all four bytes of the 16-bit form present the
decoder demands 8 further bytes instead of returning length 127, and once
fed 12 bytes it reads the 64-bit quantity starting at the extension bytes
(here 127 <<< 48) as the payload length. -/
theorem decode_16bit_127_misparsed :
    WebsocketFrame.decode [129, 126, 0, 127] = .error (.insufficientData 8) ∧
    WebsocketFrame.decode [129, 126, 0, 127, 0, 0, 0, 0, 0, 0, 0, 0]
      = .ok { opcode := 1, len := 35747322042253312, fin := true, masked := false,
              mask := none } ∧
    (35747322042253312 : Nat) ≠ 127 :=
  ⟨by decide, by decide, by decide⟩

/-! ### Websocket.receive (C3) -/

/-- C3 counterexample: an unmasked final frame with a 2-byte header and
payload length 1 (header `[0x82, 0x01]`, payload byte 9).  The claim says
the payload placed in the buffer is the byte following the header, i.e. 9;
but `receive` reads six bytes up front, swallowing the payload into its
header scratch array, and then reads the unrelated later byte 55 as the
payload. -/
theorem receive_short_header_wrong_payload :
    Websocket.receive [130, 1, 9, 99, 99, 99, 55] 1
      = .ok ({ opcode := 2, len := 1, fin := true, masked := false, mask := none },
          [55], []) ∧
    (55 : Nat) ≠ 9 :=
  ⟨by decide, by decide⟩

/-! ### Responder serialization (C7) -/

/-- C7: against a request whose Host is `RustServer`, status OK followed by
a `text/html` Content-Type and `no_body` writes exactly the expected byte
sequence, the Server header taken from the request's host at
construction. -/
theorem response_ok_html_nobody (req : Request) (h : req.host = bs "RustServer") :
    (Responder.new req).withStatus .ok ++ (ResponseHeader.contentType (bs "text/html")).write
      ++ ResponderInner.noBody
    = bs "HTTP/1.1 200 OK\r\nServer: RustServer\r\nContent-Type: text/html\r\n\r\n" := by
  simp only [Responder.new, ResponderInner.withStatus, h]
  decide

/-- C7 witness at a concrete request. -/
theorem response_ok_html_nobody_witness :
    (Responder.new c7Sample).withStatus .ok
      ++ (ResponseHeader.contentType (bs "text/html")).write ++ ResponderInner.noBody
    = bs "HTTP/1.1 200 OK\r\nServer: RustServer\r\nContent-Type: text/html\r\n\r\n" :=
  response_ok_html_nobody c7Sample (by decide)

/-! ### Server.serve (C2, C8) -/

/-- C2: the serve loop hands `Request::parse` the whole buffer, not its
first `offset` bytes.  With a 44-byte zeroed buffer and a single read of a
39-byte request whose declared content length is 5 but whose body has only
2 bytes so far, the parse of the full buffer succeeds — its body padded
with three stale zero bytes — and the handler runs, whereas the parse of
exactly the filled prefix returns `Incomplete(Some 5)` and would have
continued reading. -/
theorem serve_parses_whole_buffer :
    Server.serve (fun _ => .err (.customError "handler invoked"))
        [.ok (bs "GET / HTTP/1.1\r\nContent-Length: 5\r\n\r\nab")] (List.replicate 44 0) 0
      = .error (.handlerError (.customError "handler invoked")) ∧
    (Request.parse
        (writeAt (List.replicate 44 0) 0 (bs "GET / HTTP/1.1\r\nContent-Length: 5\r\n\r\nab"))
      ).map (fun r => (r.body, r.content_length)) = .ok (some [97, 98, 0, 0, 0], 5) ∧
    Request.parse (bs "GET / HTTP/1.1\r\nContent-Length: 5\r\n\r\nab")
      = .error (.incomplete (some 5)) :=
  ⟨by decide, by decide, by decide⟩

theorem dispatchErr_error {he : HandlerError} {e : ServerError}
    (h : Server.dispatchErr he = .error e) :
    (∃ s, e = .protocolError s) ∨
      (∃ he', e = .handlerError he' ∧ he' ≠ .responderError .networkError) := by
  unfold Server.dispatchErr at h
  match he with
  | .responderError .networkError => cases h
  | .responderError (.protocolError s) =>
    injection h with h
    exact Or.inl ⟨s, h.symm⟩
  | .websocketError w =>
    injection h with h
    exact Or.inr ⟨.websocketError w, h.symm, by simp⟩
  | .customError s =>
    injection h with h
    exact Or.inr ⟨.customError s, h.symm, by simp⟩

/-- C8, amended: `serve` never surfaces a transport read failure or a
responder `NetworkError` — every error it returns is a protocol error, a
buffer-exceeded report, or a handler error different from
`ResponderError::NetworkError`.  (A websocket `NetworkError` returned by
the handler does surface, as the counterexample shows.) -/
theorem serve_error_never_network (handler : Request → HandlerStep)
    (reads : List (Except Unit (List Nat))) (buf : List Nat) (offset : Nat)
    (e : ServerError) (h : Server.serve handler reads buf offset = .error e) :
    (∃ s, e = .protocolError s) ∨ (∃ n, e = .bufferExceeded n) ∨
      (∃ he, e = .handlerError he ∧ he ≠ .responderError .networkError) := by
  induction reads generalizing buf offset with
  | nil =>
    unfold Server.serve at h
    split at h
    · injection h with h
      exact Or.inr (Or.inl ⟨0, h.symm⟩)
    · cases h
  | cons ev rest ih =>
    unfold Server.serve at h
    match ev with
    | .error _ => cases h
    | .ok bytes =>
      simp only at h
      split at h
      · split at h
        · injection h with h
          exact Or.inr (Or.inl ⟨0, h.symm⟩)
        · cases h
      · split at h
        · rename_i request hparse
          split at h
          · exact ih _ _ h
          · exact ih _ _ h
          · rcases dispatchErr_error h with he | he
            · exact Or.inl he
            · exact Or.inr (Or.inr he)
          · rcases dispatchErr_error h with he | he
            · exact Or.inl he
            · exact Or.inr (Or.inr he)
        · rename_i err hparse
          injection h with h
          exact Or.inl ⟨_, h.symm⟩
        · exact ih _ _ h

/-- C8 witness: a run ending in a handler custom error, where the
disjunction holds concretely. -/
theorem serve_error_never_network_witness :
    (∃ s, ServerError.handlerError (.customError "boom") = .protocolError s) ∨
    (∃ n, ServerError.handlerError (.customError "boom") = .bufferExceeded n) ∨
    (∃ he, ServerError.handlerError (.customError "boom") = .handlerError he ∧
      he ≠ .responderError .networkError) :=
  serve_error_never_network (fun _ => .err (.customError "boom"))
    [.ok (bs "GET / HTTP/1.1\r\nContent-Length: 0\r\n\r\n")] (List.replicate 37 0) 0
    _ (by decide)

/-- C8 counterexample: a websocket `NetworkError` returned by the handler
is not treated as graceful termination — `serve` returns an error, not
`Ok`, contradicting the claim. -/
theorem serve_ws_network_error_surfaces :
    Server.serve (fun _ => .okWs (.error (.websocketError .networkError)))
        [.ok (bs "GET / HTTP/1.1\r\nContent-Length: 0\r\n\r\n")] (List.replicate 37 0) 0
      = .error (.handlerError (.websocketError .networkError)) ∧
    Except.error (ServerError.handlerError (.websocketError .networkError))
      ≠ Except.ok () :=
  ⟨by decide, by decide⟩

/-! ### with_body and the Content-Length header (C6) -/

/-- C6: completing a response through `with_body` with a non-empty body
writes the `Content-Length: L` line (decimal `L`) immediately before the
blank line and the body bytes; an empty body writes only the blank line,
and a `ContentLength(0)` header written through `with_header` emits
nothing. -/
theorem with_body_content_length (body : List Nat) (h : body.length < 2 ^ 64) :
    (0 < body.length →
      ResponderInner.withBody body
        = bs "Content-Length" ++ bs ": " ++ decRep body.length ++ [13, 10] ++ [13, 10]
          ++ body) ∧
    (body.length = 0 → ResponderInner.withBody body = [13, 10]) ∧
    (ResponseHeader.contentLength 0).write = [] := by
  refine ⟨?_, ?_, by decide⟩
  · intro hpos
    have h20 : body.length < 10 ^ 20 := lt_trans h (by norm_num)
    simp only [ResponderInner.withBody, ResponseHeader.write, headerTail]
    rw [if_neg (by omega), asciiInt_asStr_from body.length h20]
    simp [List.append_assoc]
  · intro h0
    have : body = [] := List.length_eq_zero.mp h0
    subst this
    decide

/-- C6 witness: a one-byte body. -/
theorem with_body_content_length_witness :
    (0 < [55].length →
      ResponderInner.withBody [55]
        = bs "Content-Length" ++ bs ": " ++ decRep [55].length ++ [13, 10] ++ [13, 10]
          ++ [55]) ∧
    ([55].length = 0 → ResponderInner.withBody [55] = [13, 10]) ∧
    (ResponseHeader.contentLength 0).write = [] :=
  with_body_content_length [55] (by decide)

/-! ### The websocket accept token (C10) -/

theorem sha1_length (msg : List Nat) : (sha1 msg).length = 20 := by
  rw [sha1]
  generalize (List.range _).foldl _ _ = p
  obtain ⟨a, b, c, d, e⟩ := p
  simp [sha1Digest, be32]

theorem b64encode_length : ∀ l : List Nat, (b64encode l).length = 4 * ((l.length + 2) / 3)
  | [] => rfl
  | [_] => by simp [b64encode]
  | [_, _] => by simp [b64encode]
  | a :: b :: c :: rest => by
    show (_ :: _ :: _ :: _ :: b64encode rest).length = _
    simp only [List.length_cons, b64encode_length rest]
    omega

theorem b64Char_lt (i : Nat) : b64Char i < 128 := by
  unfold b64Char
  rw [List.getD_eq_getElem?_getD]
  cases h : b64Alphabet[i]? with
  | none => simp [h]
  | some v =>
    have hv : v ∈ b64Alphabet := List.getElem?_mem h
    have hall : ∀ x ∈ b64Alphabet, x < 128 := by decide
    simpa [h] using hall v hv

theorem b64encode_ascii : ∀ l : List Nat, ∀ x ∈ b64encode l, x < 128
  | [] => by intro x hx; cases hx
  | [a] => by
    intro x hx
    simp only [b64encode, List.mem_cons, List.not_mem_nil, or_false] at hx
    rcases hx with rfl | rfl | rfl | rfl
    · exact b64Char_lt _
    · exact b64Char_lt _
    · omega
    · omega
  | [a, b] => by
    intro x hx
    simp only [b64encode, List.mem_cons, List.not_mem_nil, or_false] at hx
    rcases hx with rfl | rfl | rfl | rfl
    · exact b64Char_lt _
    · exact b64Char_lt _
    · exact b64Char_lt _
    · omega
  | a :: b :: c :: rest => by
    intro x hx
    have hx' : x = b64Char (a >>> 2) ∨ x = b64Char ((a &&& 3) <<< 4 ||| b >>> 4) ∨
        x = b64Char ((b &&& 15) <<< 2 ||| c >>> 6) ∨ x = b64Char (c &&& 63) ∨
        x ∈ b64encode rest := by
      simpa only [b64encode, List.mem_cons] using hx
    rcases hx' with rfl | rfl | rfl | rfl | hx'
    · exact b64Char_lt _
    · exact b64Char_lt _
    · exact b64Char_lt _
    · exact b64Char_lt _
    · exact b64encode_ascii rest x hx' 

/-- C10: for every client key `sec_websocket_accept_val` succeeds with the
base64 encoding of the SHA-1 digest of the key followed by the RFC 6455
magic string — always 28 ASCII bytes — and on the RFC 6455 sample key it
yields exactly the reference token. -/
theorem accept_val_spec :
    (∀ key : List Nat,
      sec_websocket_accept_val key
        = .ok (b64encode (sha1 (key ++ bs "258EAFA5-E914-47DA-95CA-C5AB0DC85B11"))) ∧
      (b64encode (sha1 (key ++ bs "258EAFA5-E914-47DA-95CA-C5AB0DC85B11"))).length = 28 ∧
      ∀ x ∈ b64encode (sha1 (key ++ bs "258EAFA5-E914-47DA-95CA-C5AB0DC85B11")), x < 128) ∧
    sec_websocket_accept_val (bs "dGhlIHNhbXBsZSBub25jZQ==")
      = .ok (bs "s3pPLMBiTxaQ9kYGzzhZRbK+xOo=") := by
  have hlen : ∀ key : List Nat,
      (b64encode (sha1 (key ++ bs "258EAFA5-E914-47DA-95CA-C5AB0DC85B11"))).length = 28 := by
    intro key
    rw [b64encode_length, sha1_length]
  refine ⟨fun key => ⟨?_, hlen key, b64encode_ascii _⟩,
    by set_option maxRecDepth 100000 in decide⟩
  unfold sec_websocket_accept_val
  have h28 := hlen key
  rw [if_neg (by omega)]

/-! ### Well-formed masked frames through Websocket.receive (C3, amended) -/


theorem land128_of_lt {a : Nat} (h : a < 128) : (128 + a) &&& 128 = 128 := by
  have ht : (128 + a).testBit 7 = true := by
    rw [Nat.testBit_to_div_mod]
    simp only [decide_eq_true_eq]
    norm_num
    omega
  have hand := Nat.and_two_pow (128 + a) 7
  norm_num at hand
  rw [hand, ht]
  rfl

theorem land15_of_lt {op : Nat} (h : op < 16) : (128 + op) &&& 15 = op := by
  have h15 : (128 + op) &&& 15 = (128 + op) &&& (2 ^ 4 - 1) := by norm_num
  rw [h15, Nat.and_pow_two_sub_one_eq_mod]
  omega

theorem len7_eq {a : Nat} (h : a ≤ 127) : (((128 + a) <<< 1) % 256) >>> 1 = a := by
  rw [Nat.shiftLeft_eq, Nat.shiftRight_eq_div_pow]
  norm_num
  omega

theorem or_add {a lo : Nat} (k : Nat) (ha : 2 ^ k ∣ a) (hlo : lo < 2 ^ k) :
    a ||| lo = a + lo := by
  obtain ⟨c, rfl⟩ := ha
  rw [← Nat.mul_add_lt_is_or hlo c]

theorem shiftLeft_lt_of_byte {b : Nat} (hb : b < 256) (k : Nat) : b <<< k < 2 ^ (k + 8) := by
  calc b <<< k = b * 2 ^ k := Nat.shiftLeft_eq b k
  _ < 256 * 2 ^ k := (Nat.mul_lt_mul_right (Nat.two_pow_pos k)).mpr hb
  _ = 2 ^ (k + 8) := by rw [pow_add]; ring

theorem be16_recompose {n : Nat} (_h : n < 65536) : (n >>> 8) <<< 8 ||| n % 256 = n := by
  have hlo : n % 256 < 2 ^ 8 := by
    have := Nat.mod_lt n (show 0 < 256 by norm_num)
    omega
  rw [or_add 8 (by rw [Nat.shiftLeft_eq]; exact dvd_mul_left _ _) hlo]
  rw [Nat.shiftLeft_eq, Nat.shiftRight_eq_div_pow]
  norm_num
  omega

theorem decodeLoopWS_ok {acc s : List Nat} {f : WebsocketFrame} (fuel : Nat)
    (h : WebsocketFrame.decode acc = .ok f) :
    decodeLoopWS (fuel + 1) acc s = .ok (f, s) := by
  rw [decodeLoopWS, h]

theorem decodeLoopWS_more {acc s chunk s' : List Nat} {n : Nat} (fuel : Nat)
    (h : WebsocketFrame.decode acc = .error (.insufficientData n))
    (hr : readExact s n = some (chunk, s')) :
    decodeLoopWS (fuel + 1) acc s = decodeLoopWS fuel (acc ++ chunk) s' := by
  rw [decodeLoopWS, h]
  dsimp only
  rw [hr]

theorem readExact_append (pre post : List Nat) (n : Nat) (h : pre.length = n) :
    readExact (pre ++ post) n = some (pre, post) := by
  subst h
  rw [readExact, if_pos (by simp)]
  rw [List.take_left, List.drop_left]

theorem dvd_shiftLeft (x : Nat) {j k : Nat} (h : j ≤ k) : 2 ^ j ∣ x <<< k := by
  rw [Nat.shiftLeft_eq]
  exact Dvd.dvd.mul_left (pow_dvd_pow 2 h) x

theorem byte_lt (n k : Nat) : n >>> k % 256 < 256 := Nat.mod_lt _ (by norm_num)

theorem be64_recompose {n : Nat} (h : n < 2 ^ 64) :
    (n >>> 56 % 256) <<< 56 ||| (n >>> 48 % 256) <<< 48 ||| (n >>> 40 % 256) <<< 40 |||
    (n >>> 32 % 256) <<< 32 ||| (n >>> 24 % 256) <<< 24 ||| (n >>> 16 % 256) <<< 16 |||
    (n >>> 8 % 256) <<< 8 ||| n % 256 = n := by
  rw [or_add 56 (dvd_shiftLeft _ (by norm_num))
    (show (n >>> 48 % 256) <<< 48 < 2 ^ 56 from shiftLeft_lt_of_byte (byte_lt n 48) 48)]
  rw [or_add 48
    (dvd_add (dvd_shiftLeft _ (by norm_num)) (dvd_shiftLeft _ (by norm_num)))
    (show (n >>> 40 % 256) <<< 40 < 2 ^ 48 from shiftLeft_lt_of_byte (byte_lt n 40) 40)]
  rw [or_add 40
    (dvd_add (dvd_add (dvd_shiftLeft _ (by norm_num)) (dvd_shiftLeft _ (by norm_num)))
      (dvd_shiftLeft _ (by norm_num)))
    (show (n >>> 32 % 256) <<< 32 < 2 ^ 40 from shiftLeft_lt_of_byte (byte_lt n 32) 32)]
  rw [or_add 32
    (dvd_add (dvd_add (dvd_add (dvd_shiftLeft _ (by norm_num))
      (dvd_shiftLeft _ (by norm_num))) (dvd_shiftLeft _ (by norm_num)))
      (dvd_shiftLeft _ (by norm_num)))
    (show (n >>> 24 % 256) <<< 24 < 2 ^ 32 from shiftLeft_lt_of_byte (byte_lt n 24) 24)]
  rw [or_add 24
    (dvd_add (dvd_add (dvd_add (dvd_add (dvd_shiftLeft _ (by norm_num))
      (dvd_shiftLeft _ (by norm_num))) (dvd_shiftLeft _ (by norm_num)))
      (dvd_shiftLeft _ (by norm_num))) (dvd_shiftLeft _ (by norm_num)))
    (show (n >>> 16 % 256) <<< 16 < 2 ^ 24 from shiftLeft_lt_of_byte (byte_lt n 16) 16)]
  rw [or_add 16
    (dvd_add (dvd_add (dvd_add (dvd_add (dvd_add (dvd_shiftLeft _ (by norm_num))
      (dvd_shiftLeft _ (by norm_num))) (dvd_shiftLeft _ (by norm_num)))
      (dvd_shiftLeft _ (by norm_num))) (dvd_shiftLeft _ (by norm_num)))
      (dvd_shiftLeft _ (by norm_num)))
    (show (n >>> 8 % 256) <<< 8 < 2 ^ 16 from shiftLeft_lt_of_byte (byte_lt n 8) 8)]
  rw [or_add 8
    (dvd_add (dvd_add (dvd_add (dvd_add (dvd_add (dvd_add (dvd_shiftLeft _ (by norm_num))
      (dvd_shiftLeft _ (by norm_num))) (dvd_shiftLeft _ (by norm_num)))
      (dvd_shiftLeft _ (by norm_num))) (dvd_shiftLeft _ (by norm_num)))
      (dvd_shiftLeft _ (by norm_num))) (dvd_shiftLeft _ (by norm_num)))
    (show n % 256 < 2 ^ 8 from Nat.mod_lt _ (by norm_num))]
  simp only [Nat.shiftLeft_eq, Nat.shiftRight_eq_div_pow]
  norm_num
  omega

/-- C3, amended: for a connection stream starting with a well-formed final
masked frame (header at least 6 bytes) whose payload length is not exactly
127 and fits the buffer, `receive` consumes exactly the header bytes and
then exactly the payload bytes, returns the frame descriptor with that
opcode and length, and places the payload XORed with `mask[i mod 4]` into
the buffer. -/
theorem receive_masked_frame_exact (op lenn : Nat) (mask payload rest : List Nat) (bufCap : Nat)
    (hop0 : 0 < op) (hop : op < 16) (hlen64 : lenn < 2 ^ 64) (hne127 : lenn ≠ 127)
    (hmask : mask.length = 4) (hpay : payload.length = lenn) (hcap : lenn ≤ bufCap) :
    Websocket.receive (maskedWire op lenn mask ++ payload ++ rest) bufCap
      = .ok ({ opcode := op, len := lenn, fin := true, masked := true, mask := some mask },
          applyMaskBytes mask lenn 0 payload, rest) := by
  obtain ⟨m0, m1, m2, m3, rfl⟩ : ∃ a b c d, mask = [a, b, c, d] := by
    match mask, hmask with
    | [a, b, c, d], _ => exact ⟨a, b, c, d, rfl⟩
  have hfin : (128 + op) &&& 128 = 128 := land128_of_lt (by omega)
  have hopc : (128 + op) &&& 15 = op := land15_of_lt hop
  have hopne : ¬ op = 0 := by omega
  by_cases hA : lenn ≤ 125
  · have hmb : (128 + lenn) &&& 128 = 128 := land128_of_lt (by omega)
    have h126 : lenn ≠ 126 := by omega
    have h127' : lenn ≠ 127 := by omega
    have hdec : WebsocketFrame.decode [128 + op, 128 + lenn, m0, m1, m2, m3]
        = .ok
          { opcode := op, len := lenn, fin := true, masked := true,
            mask := some [m0, m1, m2, m3] } := by
      rw [WebsocketFrame.decode]
      rw [if_neg (by simp)]
      simp only [List.getD_cons_zero, List.getD_cons_succ, hfin, hopc, hmb,
        len7_eq (show lenn ≤ 127 by omega), h126, h127']
      norm_num [hopne]
      rw [if_neg h127']
      simp
    rw [maskedWire, if_pos hA]
    rw [Websocket.receive]
    rw [show ([128 + op, 128 + lenn] ++ [m0, m1, m2, m3]) ++ payload ++ rest
        = [128 + op, 128 + lenn, m0, m1, m2, m3] ++ (payload ++ rest) from by simp]
    rw [readExact_append _ _ 6 (by simp)]
    dsimp only
    rw [decodeLoopWS_ok 13 hdec]
    simp only
    rw [if_neg (by omega)]
    rw [readExact_append payload rest lenn hpay]
    simp [WebsocketFrame.applyMask]
  · by_cases hB : lenn < 65536
    · have hm254 : ((254 : Nat) &&& 128) = 128 := by decide
      have hl254 : ((((254 : Nat) <<< 1) % 256) >>> 1) = 126 := by decide
      have hrec : (lenn >>> 8) <<< 8 ||| lenn % 256 = lenn := be16_recompose hB
      have hdec1 : WebsocketFrame.decode [128 + op, 254, lenn >>> 8, lenn % 256, m0, m1]
          = .error (.insufficientData 2) := by
        rw [WebsocketFrame.decode]
        rw [if_neg (by simp)]
        simp only [List.getD_cons_zero, List.getD_cons_succ, hfin, hopc, hm254, hl254, hrec]
        norm_num [hopne]
        rw [if_neg hne127]
        norm_num
      have hdec2 : WebsocketFrame.decode
          [128 + op, 254, lenn >>> 8, lenn % 256, m0, m1, m2, m3]
          = .ok
            { opcode := op, len := lenn, fin := true, masked := true,
              mask := some [m0, m1, m2, m3] } := by
        rw [WebsocketFrame.decode]
        rw [if_neg (by simp)]
        simp only [List.getD_cons_zero, List.getD_cons_succ, hfin, hopc, hm254, hl254, hrec]
        norm_num [hopne]
        rw [if_neg hne127]
        norm_num
      rw [maskedWire, if_neg hA, if_pos hB]
      simp only [List.cons_append, List.nil_append]
      rw [Websocket.receive]
      rw [show (128 + op) :: 254 :: (lenn >>> 8) :: (lenn % 256) :: m0 :: m1 :: m2 :: m3 ::
          (payload ++ rest)
          = [128 + op, 254, lenn >>> 8, lenn % 256, m0, m1] ++ (m2 :: m3 :: (payload ++ rest))
          from by simp]
      rw [readExact_append _ _ 6 (by simp)]
      dsimp only
      rw [decodeLoopWS_more 13 hdec1
        (show readExact (m2 :: m3 :: (payload ++ rest)) 2 = some ([m2, m3], payload ++ rest)
          from readExact_append [m2, m3] (payload ++ rest) 2 (by simp))]
      rw [show [128 + op, 254, lenn >>> 8, lenn % 256, m0, m1] ++ [m2, m3]
          = [128 + op, 254, lenn >>> 8, lenn % 256, m0, m1, m2, m3] from by simp]
      rw [decodeLoopWS_ok 12 hdec2]
      dsimp only
      rw [if_neg (by omega)]
      rw [readExact_append payload rest lenn hpay]
      simp [WebsocketFrame.applyMask]
    · have hm255 : ((255 : Nat) &&& 128) = 128 := by decide
      have hl255 : ((((255 : Nat) <<< 1) % 256) >>> 1) = 127 := by decide
      have hrec := be64_recompose hlen64
      have hdec1 : WebsocketFrame.decode
          [128 + op, 255, lenn >>> 56 % 256, lenn >>> 48 % 256, lenn >>> 40 % 256,
            lenn >>> 32 % 256]
          = .error (.insufficientData 4) := by
        rw [WebsocketFrame.decode]
        rw [if_neg (by simp)]
        simp only [List.getD_cons_zero, List.getD_cons_succ, hfin, hopc, hm255, hl255]
        norm_num [hopne]
      have hdec2 : WebsocketFrame.decode
          [128 + op, 255, lenn >>> 56 % 256, lenn >>> 48 % 256, lenn >>> 40 % 256,
            lenn >>> 32 % 256, lenn >>> 24 % 256, lenn >>> 16 % 256, lenn >>> 8 % 256,
            lenn % 256]
          = .error (.insufficientData 4) := by
        rw [WebsocketFrame.decode]
        rw [if_neg (by simp)]
        simp only [List.getD_cons_zero, List.getD_cons_succ, hfin, hopc, hm255, hl255, hrec]
        norm_num [hopne]
      have hdec3 : WebsocketFrame.decode
          [128 + op, 255, lenn >>> 56 % 256, lenn >>> 48 % 256, lenn >>> 40 % 256,
            lenn >>> 32 % 256, lenn >>> 24 % 256, lenn >>> 16 % 256, lenn >>> 8 % 256,
            lenn % 256, m0, m1, m2, m3]
          = .ok
            { opcode := op, len := lenn, fin := true, masked := true,
              mask := some [m0, m1, m2, m3] } := by
        rw [WebsocketFrame.decode]
        rw [if_neg (by simp)]
        simp only [List.getD_cons_zero, List.getD_cons_succ, hfin, hopc, hm255, hl255, hrec]
        norm_num [hopne]
      rw [maskedWire, if_neg hA, if_neg hB]
      simp only [be64, List.cons_append, List.nil_append]
      rw [Websocket.receive]
      rw [show (128 + op) :: 255 :: (lenn >>> 56 % 256) :: (lenn >>> 48 % 256) ::
          (lenn >>> 40 % 256) :: (lenn >>> 32 % 256) :: (lenn >>> 24 % 256) ::
          (lenn >>> 16 % 256) :: (lenn >>> 8 % 256) :: (lenn % 256) :: m0 :: m1 :: m2 :: m3 ::
          (payload ++ rest)
          = [128 + op, 255, lenn >>> 56 % 256, lenn >>> 48 % 256, lenn >>> 40 % 256,
              lenn >>> 32 % 256]
            ++ ((lenn >>> 24 % 256) :: (lenn >>> 16 % 256) :: (lenn >>> 8 % 256) ::
              (lenn % 256) :: m0 :: m1 :: m2 :: m3 :: (payload ++ rest)) from by simp]
      rw [readExact_append _ _ 6 (by simp)]
      dsimp only
      rw [decodeLoopWS_more 13 hdec1
        (show readExact ((lenn >>> 24 % 256) :: (lenn >>> 16 % 256) :: (lenn >>> 8 % 256) ::
            (lenn % 256) :: m0 :: m1 :: m2 :: m3 :: (payload ++ rest)) 4
          = some ([lenn >>> 24 % 256, lenn >>> 16 % 256, lenn >>> 8 % 256, lenn % 256],
              m0 :: m1 :: m2 :: m3 :: (payload ++ rest))
          from readExact_append [lenn >>> 24 % 256, lenn >>> 16 % 256, lenn >>> 8 % 256,
            lenn % 256] (m0 :: m1 :: m2 :: m3 :: (payload ++ rest)) 4 (by simp))]
      rw [show [128 + op, 255, lenn >>> 56 % 256, lenn >>> 48 % 256, lenn >>> 40 % 256,
            lenn >>> 32 % 256]
          ++ [lenn >>> 24 % 256, lenn >>> 16 % 256, lenn >>> 8 % 256, lenn % 256]
          = [128 + op, 255, lenn >>> 56 % 256, lenn >>> 48 % 256, lenn >>> 40 % 256,
              lenn >>> 32 % 256, lenn >>> 24 % 256, lenn >>> 16 % 256, lenn >>> 8 % 256,
              lenn % 256] from by simp]
      rw [decodeLoopWS_more 12 hdec2
        (show readExact (m0 :: m1 :: m2 :: m3 :: (payload ++ rest)) 4
          = some ([m0, m1, m2, m3], payload ++ rest)
          from readExact_append [m0, m1, m2, m3] (payload ++ rest) 4 (by simp))]
      rw [show [128 + op, 255, lenn >>> 56 % 256, lenn >>> 48 % 256, lenn >>> 40 % 256,
            lenn >>> 32 % 256, lenn >>> 24 % 256, lenn >>> 16 % 256, lenn >>> 8 % 256,
            lenn % 256] ++ [m0, m1, m2, m3]
          = [128 + op, 255, lenn >>> 56 % 256, lenn >>> 48 % 256, lenn >>> 40 % 256,
              lenn >>> 32 % 256, lenn >>> 24 % 256, lenn >>> 16 % 256, lenn >>> 8 % 256,
              lenn % 256, m0, m1, m2, m3] from by simp]
      rw [decodeLoopWS_ok 11 hdec3]
      dsimp only
      rw [if_neg (by omega)]
      rw [readExact_append payload rest lenn hpay]
      simp [WebsocketFrame.applyMask]

/-- C3 witness: a masked frame with opcode 1, length 3 and mask
`[1, 2, 3, 4]`, followed by one extra stream byte. -/
theorem receive_masked_frame_exact_witness :
    Websocket.receive (maskedWire 1 3 [1, 2, 3, 4] ++ [5, 6, 7] ++ [99]) 10
      = .ok
        ({ opcode := 1, len := 3, fin := true, masked := true, mask := some [1, 2, 3, 4] },
          applyMaskBytes [1, 2, 3, 4] 3 0 [5, 6, 7], [99]) :=
  receive_masked_frame_exact 1 3 [1, 2, 3, 4] [5, 6, 7] [99] 10 (by decide) (by decide)
    (by decide) (by decide) (by decide) (by decide) (by decide)
